import Mathlib

/-!
Processor-to-Fetch: lifecycle register and timeline ingestion loop.

A shallow embedding of `pkg/watermark/fetch/processor_to_fetch.go`.

* The struct `ProcessorToFetch` becomes a record; a pointer to it becomes an
  address in a `Heap`.
* The goroutine `startTimeLineWatcher` becomes a function of the sequence of
  `select` outcomes it observes (`Selected`): which channel was taken and, for
  the watch channel, the value received.
* Calls made on collaborators that live outside this file are returned as
  explicit effects: the arguments of `offsetTimeline.Put` in call order, and
  the log lines written.
* The read/write lock serialises accesses; the embedding is sequential, so
  every locked section is one atomic function.
-/

namespace Fetch

/-! Section: Collaborators declared outside the file -/

/-- Modelled from the spec: `store.KVWatchOp`, whose declaration is outside the
sources. Events carry an operation in {Put, Delete, Purge}; the three
constructors are the constants `store.KVPut`, `store.KVDelete` and
`store.KVPurge` used by the `switch`. -/
inductive KVWatchOp where
  | KVPut
  | KVDelete
  | KVPurge
  deriving DecidableEq, Repr

/-- Modelled from the spec: `store.WatermarkKVEntry`, an interface declared
outside the sources, read through `Key()`, `Value()` and `Operation()`. The
value is the raw byte string. -/
structure WatermarkKVEntry where
  Key : String
  Value : List Nat
  Operation : KVWatchOp
  deriving DecidableEq, Repr

/-- Modelled from the spec: `processor.ProcessorEntitier`, an interface
declared outside the sources: a stable identifier and the key under which the
processor's watermark updates are published. -/
structure ProcessorEntitier where
  GetID : String
  BuildOTWatcherKey : String
  deriving DecidableEq, Repr

/-- Modelled from the spec: `store.WatermarkKVWatcher`, an interface declared
outside the sources. Only its name is data; the two channels returned by
`Watch` are represented by the `Selected` outcomes the loop consumes. -/
structure WatermarkKVWatcher where
  GetKVName : String
  deriving DecidableEq, Repr

/-- Modelled from the spec: `ot.Value`, the result type of the value codec,
declared outside the sources: two signed 64-bit fields, only copied here. -/
structure OTValue where
  Offset : Int
  Watermark : Int
  deriving DecidableEq, Repr

/-- The pair handed to `offsetTimeline.Put`, built with the field names used
at the call site. -/
structure OffsetWatermark where
  watermark : Int
  offset : Int
  deriving DecidableEq, Repr

/-- A cancellable context: only whether it is done matters here. -/
structure Context where
  done : Bool
  deriving DecidableEq, Repr

/-- The codec `ot.DecodeToOTValue`, declared outside the sources: it is a
parameter of the loop. `Except.error` is a non-nil `err`. -/
abbrev Decoder := List Nat → Except String OTValue

/-- The operations of `OffsetTimeline` used by this file; their bodies are
outside the sources, so they are parameters. `NewOffsetTimeline` returns
`none` when the constructor does not return (it panics). -/
structure TimelineOps (T : Type) where
  NewOffsetTimeline : Context → Int → Option T
  Put : T → OffsetWatermark → T

/-- The derived context of `context.WithCancel(ctx)`: done from the start when
the parent already is. -/
def Context.WithCancel (parent : Context) : Context :=
  { done := parent.done }

/-- Calling the `CancelFunc` of a derived context. -/
def Context.cancel (_ctx : Context) : Context :=
  { done := true }

/-- A line written to the logger. -/
inductive LogLine where
  | Errorw (msg : String) (processorEntity : String) (err : String)
  | Debugw (msg : String) (bucket : String) (watermark : Int) (offset : Int)
  deriving DecidableEq, Repr

/-! Section: The lifecycle status -/

/-- The Go type is `type status int`. -/
abbrev status := Int

/-- The constant `_active` (`iota` = 0). -/
def _active : status := 0

/-- The constant `_inactive`. -/
def _inactive : status := 1

/-- The constant `_deleted`. -/
def _deleted : status := 2

/-- The method `func (s status) String() string`. -/
def status.String (s : status) : String :=
  if s = _active then "active"
  else if s = _inactive then "inactive"
  else if s = _deleted then "deleted"
  else "unknown"

/-! Section: The processor record -/

/-- The struct `ProcessorToFetch`. `ctx` and `cancel` are one `Context`; `log`
holds the lines written to the logger; the lock has no state in a sequential
embedding. -/
structure ProcessorToFetch (T : Type) where
  ctx : Context
  entity : ProcessorEntitier
  status : status
  offsetTimeline : T
  otWatcher : WatermarkKVWatcher
  log : List LogLine

variable {T : Type}

/-- The method `setStatus`. -/
def ProcessorToFetch.setStatus (p : ProcessorToFetch T) (s : Fetch.status) : ProcessorToFetch T :=
  { p with status := s }

/-- The method `getStatus`. -/
def ProcessorToFetch.getStatus (p : ProcessorToFetch T) : Fetch.status :=
  p.status

/-- The method `IsActive`. -/
def ProcessorToFetch.IsActive (p : ProcessorToFetch T) : Bool :=
  p.status == _active

/-- The method `IsInactive`. -/
def ProcessorToFetch.IsInactive (p : ProcessorToFetch T) : Bool :=
  p.status == _inactive

/-- The method `IsDeleted`. -/
def ProcessorToFetch.IsDeleted (p : ProcessorToFetch T) : Bool :=
  p.status == _deleted

/-- The method `stopTimeLineWatcher`: `p.cancel()`. -/
def ProcessorToFetch.stopTimeLineWatcher (p : ProcessorToFetch T) : ProcessorToFetch T :=
  { p with ctx := p.ctx.cancel }

/-! Section: The ingestion loop -/

/-- One outcome of the `select` statement: the case taken and what was
received. A `nil` value on the watch channel is `value none`. -/
inductive Selected where
  | stopped
  | value (v : Option WatermarkKVEntry)
  deriving DecidableEq, Repr

/-- What one pass through the body of the `for` loop did: the record
afterwards, the arguments of the `offsetTimeline.Put` calls it made in order,
and whether the loop goes on (`false` after `return`). -/
structure Step (T : Type) where
  p : ProcessorToFetch T
  puts : List OffsetWatermark
  running : Bool

/-- The body of the `for` loop of `startTimeLineWatcher`, for one `select`
outcome. -/
def loopBody (ops : TimelineOps T) (decode : Decoder) (p : ProcessorToFetch T) :
    Selected → Step T
  | .stopped => { p := p, puts := [], running := false }
  | .value none => { p := p, puts := [], running := true }
  | .value (some value) =>
    match value.Operation with
    | .KVPut =>
      if value.Key ≠ p.entity.BuildOTWatcherKey then
        { p := p, puts := [], running := true }
      else
        match decode value.Value with
        | .error err =>
          { p := { p with log := p.log ++
                [LogLine.Errorw "Unable to decode the value" p.entity.GetID err] },
            puts := [], running := true }
        | .ok otValue =>
          let ow : OffsetWatermark :=
            { watermark := otValue.Watermark, offset := otValue.Offset }
          { p := { p with
                offsetTimeline := ops.Put p.offsetTimeline ow,
                log := p.log ++ [LogLine.Debugw "TimelineWatcher- Updates"
                  p.otWatcher.GetKVName otValue.Watermark otValue.Offset] },
            puts := [ow], running := true }
    | .KVDelete => { p := p, puts := [], running := true }
    | .KVPurge => { p := p, puts := [], running := true }

/-- The method `startTimeLineWatcher` run on a finite sequence of `select`
outcomes. When the sequence is used up the goroutine is blocked in `select`
and still running; after a `return` the remaining outcomes are not
consumed. -/
def startTimeLineWatcher (ops : TimelineOps T) (decode : Decoder) (p : ProcessorToFetch T) :
    List Selected → Step T
  | [] => { p := p, puts := [], running := true }
  | sel :: rest =>
    let r := loopBody ops decode p sel
    if r.running then
      let r' := startTimeLineWatcher ops decode r.p rest
      { p := r'.p, puts := r.puts ++ r'.puts, running := r'.running }
    else r

/-! Section: Construction and the running system -/

/-- What a call of `NewProcessorToFetch` leaves behind and how it evolves: the
record `p` the caller holds, whether the goroutine started by
`go p.startTimeLineWatcher()` has not returned yet, and the arguments of all
`offsetTimeline.Put` calls made so far, oldest first. -/
structure Runtime (T : Type) where
  p : ProcessorToFetch T
  watcherRunning : Bool
  puts : List OffsetWatermark

/-- The function `NewProcessorToFetch`. The record is built first, so when
`NewOffsetTimeline` does not return nothing is returned and no goroutine is
started; otherwise the goroutine is started and the record returned. -/
def NewProcessorToFetch (ops : TimelineOps T) (ctx : Context) (processor : ProcessorEntitier)
    (capacity : Int) (watcher : WatermarkKVWatcher) : Option (Runtime T) :=
  let ctx := ctx.WithCancel
  match ops.NewOffsetTimeline ctx capacity with
  | none => none
  | some offsetTimeline =>
    some
      { p :=
          { ctx := ctx
            entity := processor
            status := _active
            offsetTimeline := offsetTimeline
            otWatcher := watcher
            log := [] }
        watcherRunning := true
        puts := [] }

/-- What can happen to a constructed processor: its owner calls
`stopTimeLineWatcher` or `setStatus`, or the goroutine's `select` takes one of
its two cases. No order is imposed between them: the loop reads neither the
context nor the status, and which ready case a `select` takes is not
determined by the program. -/
inductive Action where
  | stop
  | setStatus (s : status)
  | select (sel : Selected)
  deriving DecidableEq, Repr

/-- One action on the running system. A `select` outcome is consumed only
while the goroutine has not returned. -/
def Runtime.act (ops : TimelineOps T) (decode : Decoder) (rt : Runtime T) : Action → Runtime T
  | .stop => { rt with p := rt.p.stopTimeLineWatcher }
  | .setStatus s => { rt with p := rt.p.setStatus s }
  | .select sel =>
    if rt.watcherRunning then
      let r := loopBody ops decode rt.p sel
      { p := r.p, watcherRunning := r.running, puts := rt.puts ++ r.puts }
    else rt

/-- A finite sequence of actions, in order. -/
def Runtime.run (ops : TimelineOps T) (decode : Decoder) (rt : Runtime T) :
    List Action → Runtime T
  | [] => rt
  | a :: rest => Runtime.run ops decode (rt.act ops decode a) rest

/-- Modelled from the spec: the subscription `p.otWatcher.Watch(p.ctx)`, whose
body is outside the sources, around the running system: `pending` holds the
values delivered on the watch channel and not yet received, oldest first. The
completion signal is ready once the processor's context is cancelled (`stop()`
cancels the subscription scope, which unblocks the loop via the completion
signal), and a cancelled subscription is delivered no further value. -/
structure Subscription (T : Type) where
  rt : Runtime T
  pending : List (Option WatermarkKVEntry)

/-- What can happen around a subscription: the owner calls
`stopTimeLineWatcher` or `setStatus`, the store delivers a value on the watch
channel, or the goroutine reaches its `select`. When both cases of the
`select` are ready the program does not determine which is taken:
`preferStopped` is that choice. -/
inductive Event where
  | stop
  | setStatus (s : status)
  | deliver (v : Option WatermarkKVEntry)
  | pass (preferStopped : Bool)
  deriving DecidableEq, Repr

/-- Whether an event is the goroutine reaching its `select`. -/
def Event.isPass : Event → Bool
  | .pass _ => true
  | _ => false

/-- Modelled from the spec: one event on a subscription, following the
contract of `Watch`. A value is delivered only while the context is not
cancelled. At its `select` the goroutine, if it has not returned, takes the
completion signal when the context is cancelled and either the watch channel
is empty or the choice falls on it; it takes the oldest pending value when
there is one and the completion signal is not ready or not chosen; with
nothing ready it stays blocked. The pass itself is `Runtime.act`. -/
def Subscription.step (ops : TimelineOps T) (decode : Decoder) (w : Subscription T) :
    Event → Subscription T
  | .stop => { w with rt := w.rt.act ops decode .stop }
  | .setStatus s => { w with rt := w.rt.act ops decode (.setStatus s) }
  | .deliver v => if w.rt.p.ctx.done then w else { w with pending := w.pending ++ [v] }
  | .pass preferStopped =>
    if w.rt.watcherRunning then
      match w.pending with
      | [] =>
        if w.rt.p.ctx.done then { w with rt := w.rt.act ops decode (.select .stopped) }
        else w
      | v :: rest =>
        if w.rt.p.ctx.done && preferStopped then
          { w with rt := w.rt.act ops decode (.select .stopped) }
        else { rt := w.rt.act ops decode (.select (.value v)), pending := rest }
    else w

/-- A finite sequence of events on a subscription, in order. -/
def Subscription.run (ops : TimelineOps T) (decode : Decoder) (w : Subscription T) :
    List Event → Subscription T
  | [] => w
  | e :: rest => Subscription.run ops decode (w.step ops decode e) rest

/-- Processors are handled through pointers: a heap maps an address to the
record stored there, and distinct processors are distinct addresses. -/
abbrev Heap (T : Type) := Nat → ProcessorToFetch T

/-- The method `setStatus` called through the pointer `a`. -/
def Heap.setStatus (h : Heap T) (a : Nat) (s : status) : Heap T :=
  Function.update h a ((h a).setStatus s)

/-! Section: The claims' own words -/

/-- The pair an event received on the watch channel contributes according to
the specification: the decoded pair of a non-nil Put event whose key is the
processor's derived key and whose value decodes, nothing otherwise. -/
def ingested (decode : Decoder) (entity : ProcessorEntitier) :
    Option WatermarkKVEntry → Option OffsetWatermark
  | none => none
  | some ev =>
    if ev.Operation = KVWatchOp.KVPut ∧ ev.Key = entity.BuildOTWatcherKey then
      match decode ev.Value with
      | .ok otValue => some { watermark := otValue.Watermark, offset := otValue.Offset }
      | .error _ => none
    else none

/-! Section: The timeline of the specification -/

/-- Modelled from the spec: the Offset Timeline, whose body is outside the
sources: a fixed capacity and the retained pairs, oldest first. -/
structure OffsetTimeline where
  capacity : Int
  entries : List OffsetWatermark
  deriving DecidableEq, Repr

/-- Modelled from the spec: `NewOffsetTimeline`, outside the sources.
`create(capacity)` gives an empty timeline with fixed capacity at least 1; a
non-positive capacity is rejected at construction. -/
def NewOffsetTimeline (_ctx : Context) (capacity : Int) : Option OffsetTimeline :=
  if capacity ≤ 0 then none else some { capacity := capacity, entries := [] }

/-- Modelled from the spec: `OffsetTimeline.Put`, outside the sources. An equal
watermark advances the latest entry's offset in place, a smaller watermark is
a no-op, otherwise the pair is appended and the oldest entry evicted when the
size exceeds the capacity. -/
def OffsetTimeline.Put (t : OffsetTimeline) (ow : OffsetWatermark) : OffsetTimeline :=
  match t.entries.getLast? with
  | none => { t with entries := [ow] }
  | some latest =>
    if ow.watermark = latest.watermark then
      { t with entries := t.entries.dropLast ++ [{ latest with offset := ow.offset }] }
    else if ow.watermark < latest.watermark then t
    else
      let grown := t.entries ++ [ow]
      if t.capacity < grown.length then { t with entries := grown.tail } else { t with entries := grown }

/-- The timeline of the specification as the loop's collaborator. -/
def specTimeline : TimelineOps OffsetTimeline :=
  { NewOffsetTimeline := NewOffsetTimeline, Put := OffsetTimeline.Put }

/-! Section: Concrete collaborators for evaluating the definitions -/

/-- A timeline that keeps every pair it is given, oldest first, so that its
content is the sequence of `Put` calls. -/
def recorder : TimelineOps (List OffsetWatermark) :=
  { NewOffsetTimeline := fun _ _ => some [], Put := fun t ow => t ++ [ow] }

/-- A codec for two-byte values: the first byte is the watermark, the second
the offset; any other length fails to decode. -/
def twoByteDecode : Decoder
  | [w, o] => .ok { Offset := (o : Int), Watermark := (w : Int) }
  | _ => .error "malformed value"

/-- A processor identity. -/
def p1 : ProcessorEntitier := { GetID := "p1", BuildOTWatcherKey := "p1_ot" }

/-- A watcher on the bucket of a vertex. -/
def bucket : WatermarkKVWatcher := { GetKVName := "vertex_OT" }

/-- A processor record for `p1` over the recording timeline, as constructed. -/
def proc1 : ProcessorToFetch (List OffsetWatermark) :=
  { ctx := { done := false }, entity := p1, status := _active, offsetTimeline := [],
    otWatcher := bucket, log := [] }

/-- A record for another processor, inactive, with one pair in its timeline. -/
def proc2 : ProcessorToFetch (List OffsetWatermark) :=
  { ctx := { done := false }, entity := { GetID := "p2", BuildOTWatcherKey := "p2_ot" },
    status := _inactive, offsetTimeline := [{ watermark := 99, offset := 7 }],
    otWatcher := bucket, log := [] }

/-- A heap holding `proc1` at address 0 and `proc2` everywhere else. -/
def heap12 : Heap (List OffsetWatermark) :=
  fun a => if a = 0 then proc1 else proc2

/-- The running system around `proc1`. -/
def rt1 : Runtime (List OffsetWatermark) :=
  { p := proc1, watcherRunning := true, puts := [] }

/-- A Put event for `p1` whose value decodes to watermark 15, offset 1. -/
def putOwn : WatermarkKVEntry := { Key := "p1_ot", Value := [15, 1], Operation := .KVPut }

/-- A second Put event for `p1`, decoding to watermark 20, offset 2. -/
def putOwn2 : WatermarkKVEntry := { Key := "p1_ot", Value := [20, 2], Operation := .KVPut }

/-- The subscription of `proc1` with two of its Put events pending on the
watch channel. -/
def sub1 : Subscription (List OffsetWatermark) :=
  { rt := rt1, pending := [some putOwn, some putOwn2] }

/-- A Put event published under another processor's key. -/
def putOther : WatermarkKVEntry := { Key := "p2_ot", Value := [99, 7], Operation := .KVPut }

/-- A Put event for `p1` whose value does not decode. -/
def putBad : WatermarkKVEntry := { Key := "p1_ot", Value := [15], Operation := .KVPut }

/-- A Delete event on the key of `p1`. -/
def delOwn : WatermarkKVEntry := { Key := "p1_ot", Value := [15, 1], Operation := .KVDelete }

/-! Section: Shared lemmas about the loop -/

/-- The loop body never changes the identity. -/
theorem loopBody_entity (ops : TimelineOps T) (decode : Decoder) (p : ProcessorToFetch T)
    (sel : Selected) : (loopBody ops decode p sel).p.entity = p.entity := by
  rcases sel with _ | _ | ev
  · rfl
  · rfl
  · simp only [loopBody]
    cases ev.Operation <;> simp only []
    split
    · rfl
    · cases decode ev.Value <;> rfl

/-- The loop body never changes the status. -/
theorem loopBody_status (ops : TimelineOps T) (decode : Decoder) (p : ProcessorToFetch T)
    (sel : Selected) : (loopBody ops decode p sel).p.status = p.status := by
  rcases sel with _ | _ | ev
  · rfl
  · rfl
  · simp only [loopBody]
    cases ev.Operation <;> simp only []
    split
    · rfl
    · cases decode ev.Value <;> rfl

/-- The timeline after one pass is the timeline before with the pass's `Put`
calls applied in order. -/
theorem loopBody_timeline (ops : TimelineOps T) (decode : Decoder) (p : ProcessorToFetch T)
    (sel : Selected) :
    (loopBody ops decode p sel).p.offsetTimeline
      = (loopBody ops decode p sel).puts.foldl ops.Put p.offsetTimeline := by
  rcases sel with _ | _ | ev
  · rfl
  · rfl
  · simp only [loopBody]
    cases ev.Operation <;> simp only []
    · split
      · rfl
      · cases decode ev.Value <;> rfl
    · rfl
    · rfl

/-- The loop body returns exactly on the completion signal. -/
theorem loopBody_running (ops : TimelineOps T) (decode : Decoder) (p : ProcessorToFetch T)
    (sel : Selected) : (loopBody ops decode p sel).running = true ↔ sel ≠ Selected.stopped := by
  rcases sel with _ | _ | ev
  · simp [loopBody]
  · simp [loopBody]
  · simp only [loopBody]
    cases ev.Operation <;> simp only []
    · split
      · simp
      · cases decode ev.Value <;> simp
    · simp
    · simp

/-- The `Put` calls of one pass on a received value are the pair the
specification lets that value contribute, if any. -/
theorem loopBody_puts (ops : TimelineOps T) (decode : Decoder) (p : ProcessorToFetch T)
    (v : Option WatermarkKVEntry) :
    (loopBody ops decode p (.value v)).puts = (ingested decode p.entity v).toList := by
  rcases v with _ | ev
  · rfl
  · simp only [loopBody, ingested]
    cases hop : ev.Operation <;> simp only []
    · by_cases hk : ev.Key = p.entity.BuildOTWatcherKey
      · simp only [hk, ne_eq, not_true_eq_false, if_false, and_self, if_true]
        cases decode ev.Value <;> rfl
      · simp [hk]
    · simp
    · simp

/-- What a pass does to the timeline, its `Put` calls and its decision to go
on depends only on the identity and the timeline of the record. -/
theorem loopBody_congr (ops : TimelineOps T) (decode : Decoder) (p q : ProcessorToFetch T)
    (he : p.entity = q.entity) (ht : p.offsetTimeline = q.offsetTimeline) (sel : Selected) :
    (loopBody ops decode p sel).puts = (loopBody ops decode q sel).puts
      ∧ (loopBody ops decode p sel).running = (loopBody ops decode q sel).running
      ∧ (loopBody ops decode p sel).p.entity = (loopBody ops decode q sel).p.entity
      ∧ (loopBody ops decode p sel).p.offsetTimeline
          = (loopBody ops decode q sel).p.offsetTimeline := by
  obtain ⟨pc, pe, ps, pt, pw, pl⟩ := p
  obtain ⟨qc, qe, qs, qt, qw, ql⟩ := q
  simp only at he ht
  subst he ht
  rcases sel with _ | _ | ev
  · exact ⟨rfl, rfl, rfl, rfl⟩
  · exact ⟨rfl, rfl, rfl, rfl⟩
  · cases hop : ev.Operation
    · by_cases hk : ev.Key = pe.BuildOTWatcherKey
      · cases hd : decode ev.Value <;> simp [loopBody, hop, hk, hd]
      · simp [loopBody, hop, hk]
    · simp [loopBody, hop]
    · simp [loopBody, hop]

/-- Running the loop on two sequences in a row, when it has not returned
during the first. -/
theorem startTimeLineWatcher_append (ops : TimelineOps T) (decode : Decoder)
    (sels more : List Selected) (p : ProcessorToFetch T)
    (h : (startTimeLineWatcher ops decode p sels).running = true) :
    startTimeLineWatcher ops decode p (sels ++ more)
      = { p := (startTimeLineWatcher ops decode
                  (startTimeLineWatcher ops decode p sels).p more).p
          puts := (startTimeLineWatcher ops decode p sels).puts
                  ++ (startTimeLineWatcher ops decode
                        (startTimeLineWatcher ops decode p sels).p more).puts
          running := (startTimeLineWatcher ops decode
                        (startTimeLineWatcher ops decode p sels).p more).running } := by
  induction sels generalizing p with
  | nil => simp [startTimeLineWatcher]
  | cons sel rest ih =>
    by_cases hr : (loopBody ops decode p sel).running = true
    · have h2 : (startTimeLineWatcher ops decode (loopBody ops decode p sel).p rest).running
          = true := by
        simpa [startTimeLineWatcher, hr] using h
      simp [startTimeLineWatcher, hr, ih _ h2, List.append_assoc]
    · simp [startTimeLineWatcher, hr] at h

/-- The loop on received values only: it is still running, it made exactly the
`Put` calls the specification names, in order, and changed neither identity
nor status. -/
theorem startTimeLineWatcher_values (ops : TimelineOps T) (decode : Decoder)
    (evs : List (Option WatermarkKVEntry)) (p : ProcessorToFetch T) :
    (startTimeLineWatcher ops decode p (evs.map Selected.value)).running = true
      ∧ (startTimeLineWatcher ops decode p (evs.map Selected.value)).puts
          = evs.filterMap (ingested decode p.entity)
      ∧ (startTimeLineWatcher ops decode p (evs.map Selected.value)).p.entity = p.entity
      ∧ (startTimeLineWatcher ops decode p (evs.map Selected.value)).p.status = p.status
      ∧ (startTimeLineWatcher ops decode p (evs.map Selected.value)).p.offsetTimeline
          = (evs.filterMap (ingested decode p.entity)).foldl ops.Put p.offsetTimeline := by
  induction evs generalizing p with
  | nil => simp [startTimeLineWatcher]
  | cons v rest ih =>
    have hr : (loopBody ops decode p (.value v)).running = true :=
      (loopBody_running ops decode p (.value v)).2 (by simp)
    have hp := loopBody_puts ops decode p v
    have he := loopBody_entity ops decode p (.value v)
    have hs := loopBody_status ops decode p (.value v)
    have ht := loopBody_timeline ops decode p (.value v)
    obtain ⟨i1, i2, i3, i4, i5⟩ := ih (loopBody ops decode p (.value v)).p
    simp only [List.map_cons, startTimeLineWatcher, hr, if_true]
    refine ⟨i1, ?_, i3.trans he, i4.trans hs, ?_⟩
    · rw [i2, hp, he]
      cases hi : ingested decode p.entity v <;> simp [List.filterMap_cons, hi]
    · rw [i5, ht, hp, he]
      cases hi : ingested decode p.entity v <;> simp [List.filterMap_cons, hi]

/-- The loop started from two records with the same identity and timeline
makes the same `Put` calls, the same decision to go on, and ends with the same
timeline. -/
theorem startTimeLineWatcher_congr (ops : TimelineOps T) (decode : Decoder)
    (sels : List Selected) (p q : ProcessorToFetch T)
    (he : p.entity = q.entity) (ht : p.offsetTimeline = q.offsetTimeline) :
    (startTimeLineWatcher ops decode p sels).puts = (startTimeLineWatcher ops decode q sels).puts
      ∧ (startTimeLineWatcher ops decode p sels).running
          = (startTimeLineWatcher ops decode q sels).running
      ∧ (startTimeLineWatcher ops decode p sels).p.offsetTimeline
          = (startTimeLineWatcher ops decode q sels).p.offsetTimeline := by
  induction sels generalizing p q with
  | nil => exact ⟨rfl, rfl, ht⟩
  | cons sel rest ih =>
    obtain ⟨c1, c2, c3, c4⟩ := loopBody_congr ops decode p q he ht sel
    obtain ⟨j1, j2, j3⟩ := ih _ _ c3 c4
    by_cases hr : (loopBody ops decode q sel).running = true
    · simp [startTimeLineWatcher, c2, hr, c1, j1, j2, j3]
    · simp [startTimeLineWatcher, c2, hr, c1, c4]

/-- What `NewProcessorToFetch` returns when it returns: the record is built
from the arguments with status `_active`, the timeline is the one
`NewOffsetTimeline` gave for the derived context and the capacity, the
goroutine is running and no `Put` has been made. -/
theorem NewProcessorToFetch_some (ops : TimelineOps T) (ctx : Context)
    (processor : ProcessorEntitier) (capacity : Int) (watcher : WatermarkKVWatcher)
    (rt : Runtime T) (h : NewProcessorToFetch ops ctx processor capacity watcher = some rt) :
    rt.p.entity = processor ∧ rt.p.status = _active ∧ rt.p.otWatcher = watcher
      ∧ rt.p.ctx = ctx.WithCancel ∧ rt.p.log = []
      ∧ ops.NewOffsetTimeline ctx.WithCancel capacity = some rt.p.offsetTimeline
      ∧ rt.watcherRunning = true ∧ rt.puts = [] := by
  unfold NewProcessorToFetch at h
  simp only at h
  cases hn : ops.NewOffsetTimeline ctx.WithCancel capacity with
  | none => simp [hn] at h
  | some tl =>
    simp only [hn, Option.some.injEq] at h
    subst h
    exact ⟨rfl, rfl, rfl, rfl, rfl, rfl, rfl, rfl⟩

/-! Section: The ingestion loop: one pass -/

/-- C1 (key filtering). A Put event whose key differs from the processor's
derived key makes one pass of the loop call `offsetTimeline.Put` not at all:
the timeline, and the whole record, are unchanged whatever the value is and
whether or not it decodes, and the loop goes on. -/
theorem key_filtering (ops : TimelineOps T) (decode : Decoder) (p : ProcessorToFetch T)
    (ev : WatermarkKVEntry) (hop : ev.Operation = KVWatchOp.KVPut)
    (hkey : ev.Key ≠ p.entity.BuildOTWatcherKey) :
    (loopBody ops decode p (.value (some ev))).puts = []
      ∧ (loopBody ops decode p (.value (some ev))).p.offsetTimeline = p.offsetTimeline
      ∧ (loopBody ops decode p (.value (some ev))).p = p
      ∧ (loopBody ops decode p (.value (some ev))).running = true := by
  simp [loopBody, hop, hkey]

/-- C1 at a concrete input: a Put under another processor's key, with a value
that would decode. -/
theorem key_filtering_witness :
    (loopBody recorder twoByteDecode proc1 (.value (some putOther))).puts = []
      ∧ (loopBody recorder twoByteDecode proc1 (.value (some putOther))).p.offsetTimeline = []
      ∧ (loopBody recorder twoByteDecode proc1 (.value (some putOther))).p = proc1
      ∧ (loopBody recorder twoByteDecode proc1 (.value (some putOther))).running = true :=
  key_filtering recorder twoByteDecode proc1 putOther rfl (by decide)

/-- C2 (a matching Put is inserted faithfully). A Put event whose key is the
processor's derived key and whose value decodes to watermark `w` and offset `o`
makes one pass of the loop call `offsetTimeline.Put` exactly once, with the
pair whose watermark is `w` and whose offset is `o`; the timeline afterwards is
the result of that call and the loop goes on. End to end: on a processor fresh
from `NewProcessorToFetch`, whose timeline is the one `NewOffsetTimeline`
returned, a Put under another key followed by such a matching Put results in
exactly one `Put` call, of that pair. -/
theorem matching_put_inserted (ops : TimelineOps T) (decode : Decoder)
    (ev : WatermarkKVEntry) (w o : Int) (hop : ev.Operation = KVWatchOp.KVPut)
    (hdec : decode ev.Value = .ok { Offset := o, Watermark := w }) :
    (∀ p : ProcessorToFetch T, ev.Key = p.entity.BuildOTWatcherKey →
        (loopBody ops decode p (.value (some ev))).puts = [{ watermark := w, offset := o }]
          ∧ (loopBody ops decode p (.value (some ev))).p.offsetTimeline
              = ops.Put p.offsetTimeline { watermark := w, offset := o }
          ∧ (loopBody ops decode p (.value (some ev))).running = true)
      ∧ (∀ (ctx : Context) (processor : ProcessorEntitier) (capacity : Int)
          (watcher : WatermarkKVWatcher) (rt : Runtime T) (other : WatermarkKVEntry),
          NewProcessorToFetch ops ctx processor capacity watcher = some rt →
          ev.Key = processor.BuildOTWatcherKey →
          other.Operation = KVWatchOp.KVPut → other.Key ≠ processor.BuildOTWatcherKey →
          (rt.run ops decode [.select (.value (some other)), .select (.value (some ev))]).puts
              = [{ watermark := w, offset := o }]
            ∧ ops.NewOffsetTimeline ctx.WithCancel capacity = some rt.p.offsetTimeline
            ∧ (rt.run ops decode
                  [.select (.value (some other)), .select (.value (some ev))]).p.offsetTimeline
                = ops.Put rt.p.offsetTimeline { watermark := w, offset := o }) := by
  constructor
  · intro p hkey
    simp [loopBody, hop, hkey, hdec]
  · intro ctx processor capacity watcher rt other hnew hkey hoop hokey
    obtain ⟨he, -, -, -, -, htl, hrun, hputs⟩ :=
      NewProcessorToFetch_some ops ctx processor capacity watcher rt hnew
    refine ⟨?_, htl, ?_⟩ <;>
      simp [Runtime.run, Runtime.act, loopBody, hrun, hputs, he, hoop, hokey, hop, hkey, hdec]

/-- C2 at a concrete input: the scenario of the specification, an empty
recording timeline, a Put under another key, then a Put decoding to (15,1). -/
theorem matching_put_inserted_witness :
    (rt1.run recorder twoByteDecode
        [.select (.value (some putOther)), .select (.value (some putOwn))]).puts
        = [{ watermark := 15, offset := 1 }]
      ∧ (rt1.run recorder twoByteDecode
          [.select (.value (some putOther)), .select (.value (some putOwn))]).p.offsetTimeline
        = [{ watermark := 15, offset := 1 }] :=
  have h := (matching_put_inserted recorder twoByteDecode putOwn 15 1 rfl rfl).2
    { done := false } p1 8 bucket rt1 putOther rfl rfl rfl (by decide)
  ⟨h.1, h.2.2⟩

/-- C3 (a decode failure is dropped and is not fatal). A Put event under the
processor's own key whose value fails to decode makes one pass of the loop
call `offsetTimeline.Put` not at all: timeline and status are unchanged and
the loop goes on. The event is consumed, not retried: whatever is selected
next, the loop makes the same `Put` calls, ends with the same timeline and
takes the same decision as if the failed event had never been received. In
particular a matching Put with a decodable value right after it is inserted. -/
theorem decode_failure_dropped (ops : TimelineOps T) (decode : Decoder)
    (p : ProcessorToFetch T) (ev : WatermarkKVEntry) (err : String)
    (hop : ev.Operation = KVWatchOp.KVPut) (hkey : ev.Key = p.entity.BuildOTWatcherKey)
    (hdec : decode ev.Value = .error err) :
    (loopBody ops decode p (.value (some ev))).puts = []
      ∧ (loopBody ops decode p (.value (some ev))).p.offsetTimeline = p.offsetTimeline
      ∧ (loopBody ops decode p (.value (some ev))).p.status = p.status
      ∧ (loopBody ops decode p (.value (some ev))).running = true
      ∧ (∀ rest : List Selected,
          (startTimeLineWatcher ops decode p (.value (some ev) :: rest)).puts
              = (startTimeLineWatcher ops decode p rest).puts
            ∧ (startTimeLineWatcher ops decode p (.value (some ev) :: rest)).p.offsetTimeline
              = (startTimeLineWatcher ops decode p rest).p.offsetTimeline
            ∧ (startTimeLineWatcher ops decode p (.value (some ev) :: rest)).running
              = (startTimeLineWatcher ops decode p rest).running)
      ∧ (∀ (later : WatermarkKVEntry) (w o : Int), later.Operation = KVWatchOp.KVPut →
          later.Key = p.entity.BuildOTWatcherKey →
          decode later.Value = .ok { Offset := o, Watermark := w } →
          (startTimeLineWatcher ops decode p
              [.value (some ev), .value (some later)]).puts = [{ watermark := w, offset := o }]
            ∧ (startTimeLineWatcher ops decode p
              [.value (some ev), .value (some later)]).p.offsetTimeline
                = ops.Put p.offsetTimeline { watermark := w, offset := o }) := by
  have hb : loopBody ops decode p (.value (some ev))
      = { p := { p with log := p.log ++
                  [LogLine.Errorw "Unable to decode the value" p.entity.GetID err] },
          puts := [], running := true } := by
    simp [loopBody, hop, hkey, hdec]
  refine ⟨by rw [hb], by rw [hb], by rw [hb], by rw [hb], ?_, ?_⟩
  · intro rest
    obtain ⟨c1, c2, c3⟩ := startTimeLineWatcher_congr ops decode rest
      { p with log := p.log ++ [LogLine.Errorw "Unable to decode the value" p.entity.GetID err] }
      p rfl rfl
    simp only [startTimeLineWatcher, hb, if_true, List.nil_append]
    exact ⟨c1, c3, c2⟩
  · intro later w o hlop hlkey hldec
    simp only [startTimeLineWatcher, hb, if_true, List.nil_append]
    simp [loopBody, hlop, hlkey, hldec]

/-- C3 at a concrete input: an undecodable Put under the processor's key, then
a decodable one. -/
theorem decode_failure_dropped_witness :
    (loopBody recorder twoByteDecode proc1 (.value (some putBad))).puts = []
      ∧ (loopBody recorder twoByteDecode proc1 (.value (some putBad))).running = true
      ∧ (startTimeLineWatcher recorder twoByteDecode proc1
          [.value (some putBad), .value (some putOwn)]).puts
            = [{ watermark := 15, offset := 1 }] :=
  have h := decode_failure_dropped recorder twoByteDecode proc1 putBad "malformed value"
    rfl rfl rfl
  ⟨h.1, h.2.2.2.1, (h.2.2.2.2.2 putOwn 15 1 rfl rfl rfl).1⟩

/-- C4 (events that are not Put are ignored). A `nil` value received on the
watch channel, and an event whose operation is Delete or Purge, whatever its
key and value, make one pass of the loop leave the record, hence the timeline,
unchanged, with no `Put` call, and the loop goes on. -/
theorem non_put_ignored (ops : TimelineOps T) (decode : Decoder) (p : ProcessorToFetch T)
    (v : Option WatermarkKVEntry)
    (h : v = none ∨ ∃ ev, v = some ev
        ∧ (ev.Operation = KVWatchOp.KVDelete ∨ ev.Operation = KVWatchOp.KVPurge)) :
    (loopBody ops decode p (.value v)).puts = []
      ∧ (loopBody ops decode p (.value v)).p.offsetTimeline = p.offsetTimeline
      ∧ (loopBody ops decode p (.value v)).p = p
      ∧ (loopBody ops decode p (.value v)).running = true := by
  rcases h with rfl | ⟨ev, rfl, hd | hd⟩
  · simp [loopBody]
  · simp [loopBody, hd]
  · simp [loopBody, hd]

/-- C4 at a concrete input: a Delete event on the processor's own key with a
decodable value. -/
theorem non_put_ignored_witness :
    (loopBody recorder twoByteDecode proc1 (.value (some delOwn))).puts = []
      ∧ (loopBody recorder twoByteDecode proc1 (.value (some delOwn))).p.offsetTimeline = []
      ∧ (loopBody recorder twoByteDecode proc1 (.value (some delOwn))).p = proc1
      ∧ (loopBody recorder twoByteDecode proc1 (.value (some delOwn))).running = true :=
  non_put_ignored recorder twoByteDecode proc1 (some delOwn) (Or.inr ⟨delOwn, rfl, Or.inl rfl⟩)

/-! Section: The ingestion loop: whole runs -/

/-- C5 (order-preserving ingestion). For every finite sequence of values
received on the watch channel, followed or not by the completion signal, the
sequence of pairs passed to `offsetTimeline.Put` is exactly the sequence of
decoded pairs of the non-nil Put events with the processor's key and a
decodable value, in the order received, each once; the timeline is the result
of those calls in that order. Once the completion signal is taken the loop has
returned and what is selected afterwards adds nothing. -/
theorem order_preserving_ingestion (ops : TimelineOps T) (decode : Decoder)
    (p : ProcessorToFetch T) (evs : List (Option WatermarkKVEntry)) (after : List Selected) :
    (startTimeLineWatcher ops decode p (evs.map Selected.value)).puts
        = evs.filterMap (ingested decode p.entity)
      ∧ (startTimeLineWatcher ops decode p (evs.map Selected.value)).p.offsetTimeline
        = (evs.filterMap (ingested decode p.entity)).foldl ops.Put p.offsetTimeline
      ∧ (startTimeLineWatcher ops decode p (evs.map Selected.value)).running = true
      ∧ (startTimeLineWatcher ops decode p
            (evs.map Selected.value ++ Selected.stopped :: after)).puts
        = evs.filterMap (ingested decode p.entity)
      ∧ (startTimeLineWatcher ops decode p
            (evs.map Selected.value ++ Selected.stopped :: after)).p.offsetTimeline
        = (evs.filterMap (ingested decode p.entity)).foldl ops.Put p.offsetTimeline
      ∧ (startTimeLineWatcher ops decode p
            (evs.map Selected.value ++ Selected.stopped :: after)).running = false := by
  obtain ⟨h1, h2, -, -, h5⟩ := startTimeLineWatcher_values ops decode evs p
  have ha := startTimeLineWatcher_append ops decode (evs.map Selected.value)
    (Selected.stopped :: after) p h1
  refine ⟨h2, h5, h1, ?_, ?_, ?_⟩
  · rw [ha]; simp [startTimeLineWatcher, loopBody, h2]
  · rw [ha]; simp [startTimeLineWatcher, loopBody, h5]
  · rw [ha]; simp [startTimeLineWatcher, loopBody]

/-- C10 (ingestion does not depend on the lifecycle status). Two records that
differ only in their status make, for every `select` outcome, the same `Put`
call or none and the same decision to go on or return, and the results differ
only in the status, which the pass leaves as it was. Over any sequence of
outcomes a record with any status makes the same `Put` calls, ends with the
same timeline and returns at the same point. -/
theorem status_independent_ingestion (ops : TimelineOps T) (decode : Decoder)
    (p : ProcessorToFetch T) (s : status) :
    (∀ sel : Selected,
        (loopBody ops decode (p.setStatus s) sel).puts = (loopBody ops decode p sel).puts
          ∧ (loopBody ops decode (p.setStatus s) sel).running
              = (loopBody ops decode p sel).running
          ∧ (loopBody ops decode (p.setStatus s) sel).p
              = (loopBody ops decode p sel).p.setStatus s
          ∧ (loopBody ops decode p sel).p.status = p.status
          ∧ (loopBody ops decode (p.setStatus s) sel).p.status = s)
      ∧ (∀ sels : List Selected,
          (startTimeLineWatcher ops decode (p.setStatus s) sels).puts
              = (startTimeLineWatcher ops decode p sels).puts
            ∧ (startTimeLineWatcher ops decode (p.setStatus s) sels).running
              = (startTimeLineWatcher ops decode p sels).running
            ∧ (startTimeLineWatcher ops decode (p.setStatus s) sels).p.offsetTimeline
              = (startTimeLineWatcher ops decode p sels).p.offsetTimeline) := by
  constructor
  · intro sel
    refine ⟨?_, ?_, ?_, loopBody_status ops decode p sel,
      loopBody_status ops decode (p.setStatus s) sel⟩
    all_goals
      rcases sel with _ | _ | ev
      · rfl
      · rfl
      · cases hop : ev.Operation
        · by_cases hk : ev.Key = p.entity.BuildOTWatcherKey
          · cases hd : decode ev.Value <;>
              simp [loopBody, ProcessorToFetch.setStatus, hop, hk, hd]
          · simp [loopBody, ProcessorToFetch.setStatus, hop, hk]
        · simp [loopBody, ProcessorToFetch.setStatus, hop]
        · simp [loopBody, ProcessorToFetch.setStatus, hop]
  · intro sels
    obtain ⟨c1, c2, c3⟩ := startTimeLineWatcher_congr ops decode sels (p.setStatus s) p rfl rfl
    exact ⟨c1, c2, c3⟩

/-! Section: Lifecycle status -/

/-- After a sequence of `setStatus` calls the status is the last value set, or
the one before the calls when there were none. -/
theorem foldl_setStatus_status (ss : List status) (p : ProcessorToFetch T) :
    (ss.foldl ProcessorToFetch.setStatus p).status = ss.getLast?.getD p.status := by
  induction ss generalizing p with
  | nil => rfl
  | cons s rest ih =>
    rw [List.foldl_cons, ih]
    cases rest with
    | nil => rfl
    | cons s2 rest2 =>
      rw [List.getLast?_cons_cons]
      cases hl : (s2 :: rest2).getLast? with
      | none => simp [List.getLast?_eq_none_iff] at hl
      | some x => rfl

/-- C6 (lifecycle register). A processor returned by `NewProcessorToFetch`
has status `_active`. After any finite sequence of `setStatus` calls with
values among `_active`, `_inactive`, `_deleted`, none of which is rejected,
`getStatus` is the last value set, or `_active` when there were no calls; in
that state `IsActive` holds exactly when the status is `_active`, `IsInactive`
exactly when it is `_inactive`, `IsDeleted` exactly when it is `_deleted`, and
exactly one of the three holds. -/
theorem lifecycle_register (ops : TimelineOps T) (ctx : Context)
    (processor : ProcessorEntitier) (capacity : Int) (watcher : WatermarkKVWatcher)
    (rt : Runtime T) (hnew : NewProcessorToFetch ops ctx processor capacity watcher = some rt) :
    rt.p.getStatus = _active
      ∧ ∀ ss : List status, (∀ s ∈ ss, s = _active ∨ s = _inactive ∨ s = _deleted) →
          (ss.foldl ProcessorToFetch.setStatus rt.p).getStatus = ss.getLast?.getD _active
            ∧ ((ss.foldl ProcessorToFetch.setStatus rt.p).IsActive = true
                ↔ (ss.foldl ProcessorToFetch.setStatus rt.p).getStatus = _active)
            ∧ ((ss.foldl ProcessorToFetch.setStatus rt.p).IsInactive = true
                ↔ (ss.foldl ProcessorToFetch.setStatus rt.p).getStatus = _inactive)
            ∧ ((ss.foldl ProcessorToFetch.setStatus rt.p).IsDeleted = true
                ↔ (ss.foldl ProcessorToFetch.setStatus rt.p).getStatus = _deleted)
            ∧ [(ss.foldl ProcessorToFetch.setStatus rt.p).IsActive,
                (ss.foldl ProcessorToFetch.setStatus rt.p).IsInactive,
                (ss.foldl ProcessorToFetch.setStatus rt.p).IsDeleted].count true = 1 := by
  obtain ⟨-, hst, -⟩ := NewProcessorToFetch_some ops ctx processor capacity watcher rt hnew
  refine ⟨hst, ?_⟩
  intro ss hss
  have hlast : (ss.foldl ProcessorToFetch.setStatus rt.p).status = ss.getLast?.getD _active := by
    rw [foldl_setStatus_status, hst]
  have hmem : ss.getLast?.getD _active = _active ∨ ss.getLast?.getD _active = _inactive
      ∨ ss.getLast?.getD _active = _deleted := by
    cases hl : ss.getLast? with
    | none => exact Or.inl rfl
    | some s => exact hss s (List.mem_of_getLast?_eq_some hl)
  refine ⟨hlast, ?_, ?_, ?_, ?_⟩
  · simp [ProcessorToFetch.IsActive, ProcessorToFetch.getStatus]
  · simp [ProcessorToFetch.IsInactive, ProcessorToFetch.getStatus]
  · simp [ProcessorToFetch.IsDeleted, ProcessorToFetch.getStatus]
  · simp only [ProcessorToFetch.IsActive, ProcessorToFetch.IsInactive,
      ProcessorToFetch.IsDeleted, hlast]
    rcases hmem with h | h | h <;> rw [h] <;> decide

/-- C6 at a concrete input: the processor `proc1` as constructed, then set
inactive, deleted and inactive again. -/
theorem lifecycle_register_witness :
    rt1.p.getStatus = _active
      ∧ ([_inactive, _deleted, _inactive].foldl ProcessorToFetch.setStatus rt1.p).getStatus
          = _inactive
      ∧ [([_inactive, _deleted, _inactive].foldl ProcessorToFetch.setStatus rt1.p).IsActive,
          ([_inactive, _deleted, _inactive].foldl ProcessorToFetch.setStatus rt1.p).IsInactive,
          ([_inactive, _deleted, _inactive].foldl ProcessorToFetch.setStatus rt1.p).IsDeleted].count
            true = 1 :=
  have h := lifecycle_register recorder { done := false } p1 8 bucket rt1 rfl
  have h2 := h.2 [_inactive, _deleted, _inactive] (by decide)
  ⟨h.1, h2.1, h2.2.2.2.2⟩

/-- C7 (lifecycle isolation). Calling `setStatus` through the pointer to one
processor leaves every other processor's record, hence its status and its
timeline, as it was; on the processor itself it sets the status and leaves the
timeline, the identity, the watcher, the context and the log as they were. -/
theorem lifecycle_isolation (h : Heap T) (a b : Nat) (s : status) (hab : a ≠ b) :
    (h.setStatus a s) b = h b
      ∧ ((h.setStatus a s) b).status = (h b).status
      ∧ ((h.setStatus a s) b).offsetTimeline = (h b).offsetTimeline
      ∧ ((h.setStatus a s) a).status = s
      ∧ ((h.setStatus a s) a).offsetTimeline = (h a).offsetTimeline
      ∧ ((h.setStatus a s) a).entity = (h a).entity
      ∧ ((h.setStatus a s) a).otWatcher = (h a).otWatcher
      ∧ ((h.setStatus a s) a).ctx = (h a).ctx
      ∧ ((h.setStatus a s) a).log = (h a).log := by
  have hb : (h.setStatus a s) b = h b := by
    simp [Heap.setStatus, Function.update, Ne.symm hab]
  have ha : (h.setStatus a s) a = (h a).setStatus s := by
    simp [Heap.setStatus]
  refine ⟨hb, by rw [hb], by rw [hb], ?_, ?_, ?_, ?_, ?_, ?_⟩ <;> rw [ha] <;> rfl

/-- C7 at a concrete input: the processor at address 0 is marked deleted, the
one at address 1 keeps its status and its timeline. -/
theorem lifecycle_isolation_witness :
    ((heap12.setStatus 0 _deleted) 1).status = _inactive
      ∧ ((heap12.setStatus 0 _deleted) 1).offsetTimeline = [{ watermark := 99, offset := 7 }]
      ∧ ((heap12.setStatus 0 _deleted) 0).status = _deleted
      ∧ ((heap12.setStatus 0 _deleted) 0).offsetTimeline = [] :=
  have h := lifecycle_isolation heap12 0 1 _deleted (by decide)
  ⟨h.2.1, h.2.2.1, h.2.2.2.1, h.2.2.2.2.1⟩

/-! Section: Stopping -/

/-- Once the goroutine has returned, no action adds a `Put` call or changes the
timeline. -/
theorem Runtime.run_returned (ops : TimelineOps T) (decode : Decoder) (acts : List Action)
    (rt : Runtime T) (h : rt.watcherRunning = false) :
    (rt.run ops decode acts).watcherRunning = false
      ∧ (rt.run ops decode acts).puts = rt.puts
      ∧ (rt.run ops decode acts).p.offsetTimeline = rt.p.offsetTimeline := by
  induction acts generalizing rt with
  | nil => exact ⟨h, rfl, rfl⟩
  | cons a rest ih =>
    have hstep : (rt.act ops decode a).watcherRunning = false
        ∧ (rt.act ops decode a).puts = rt.puts
        ∧ (rt.act ops decode a).p.offsetTimeline = rt.p.offsetTimeline := by
      cases a <;> simp [Runtime.act, h, ProcessorToFetch.stopTimeLineWatcher,
        ProcessorToFetch.setStatus]
    obtain ⟨i1, i2, i3⟩ := ih (rt.act ops decode a) hstep.1
    exact ⟨i1, i2.trans hstep.2.1, i3.trans hstep.2.2⟩

/-- Running two sequences of actions in a row. -/
theorem Runtime.run_append (ops : TimelineOps T) (decode : Decoder) (acts more : List Action)
    (rt : Runtime T) :
    rt.run ops decode (acts ++ more) = (rt.run ops decode acts).run ops decode more := by
  induction acts generalizing rt with
  | nil => rfl
  | cons a rest ih => simp [Runtime.run, ih]

/-- The goroutine is running after a sequence of actions exactly when it was
running before and the completion signal was not taken. -/
theorem Runtime.run_watcherRunning (ops : TimelineOps T) (decode : Decoder)
    (acts : List Action) (rt : Runtime T) :
    (rt.run ops decode acts).watcherRunning = true
      ↔ rt.watcherRunning = true ∧ Action.select Selected.stopped ∉ acts := by
  induction acts generalizing rt with
  | nil => simp [Runtime.run]
  | cons a rest ih =>
    rw [Runtime.run, ih]
    cases a with
    | stop => simp [Runtime.act]
    | setStatus s => simp [Runtime.act]
    | select sel =>
      by_cases hr : rt.watcherRunning = true
      · have hb := loopBody_running ops decode rt.p sel
        by_cases hs : sel = Selected.stopped
        · subst hs
          simp [Runtime.act, hr, loopBody]
        · have hne : Selected.stopped ≠ sel := fun e => hs e.symm
          simp [Runtime.act, hr, hb.2 hs, hne]
      · simp [Runtime.act, hr]

/-- The loop body never changes the context. -/
theorem loopBody_ctx (ops : TimelineOps T) (decode : Decoder) (p : ProcessorToFetch T)
    (sel : Selected) : (loopBody ops decode p sel).p.ctx = p.ctx := by
  rcases sel with _ | _ | ev
  · rfl
  · rfl
  · simp only [loopBody]
    cases ev.Operation <;> simp only []
    split
    · rfl
    · cases decode ev.Value <;> rfl

/-- The loop body does not read the context: on a record whose context has
been cancelled it does what it does on the record itself, and the result
differs only in the context. -/
theorem loopBody_stopTimeLineWatcher (ops : TimelineOps T) (decode : Decoder)
    (p : ProcessorToFetch T) (sel : Selected) :
    loopBody ops decode p.stopTimeLineWatcher sel
      = { p := (loopBody ops decode p sel).p.stopTimeLineWatcher
          puts := (loopBody ops decode p sel).puts
          running := (loopBody ops decode p sel).running } := by
  rcases sel with _ | _ | ev
  · rfl
  · rfl
  · cases hop : ev.Operation
    · by_cases hk : ev.Key = p.entity.BuildOTWatcherKey
      · cases hd : decode ev.Value <;>
          simp [loopBody, ProcessorToFetch.stopTimeLineWatcher, hop, hk, hd]
      · simp [loopBody, ProcessorToFetch.stopTimeLineWatcher, hop, hk]
    · simp [loopBody, ProcessorToFetch.stopTimeLineWatcher, hop]
    · simp [loopBody, ProcessorToFetch.stopTimeLineWatcher, hop]

/-- A pass of the running goroutine that takes the completion signal returns
without a `Put` call and leaves the record as it is. -/
theorem Runtime.act_select_stopped (ops : TimelineOps T) (decode : Decoder) (rt : Runtime T) :
    (rt.act ops decode (.select .stopped)).watcherRunning = false
      ∧ (rt.act ops decode (.select .stopped)).puts = rt.puts
      ∧ (rt.act ops decode (.select .stopped)).p = rt.p := by
  by_cases hr : rt.watcherRunning = true
  · simp [Runtime.act, hr, loopBody]
  · simp [Runtime.act, hr]

/-- A pass of the running goroutine that takes a value from the watch channel
makes exactly the `Put` call the specification names for that value, whatever
the context and the status are, and the goroutine goes on. -/
theorem Runtime.act_select_value (ops : TimelineOps T) (decode : Decoder) (rt : Runtime T)
    (v : Option WatermarkKVEntry) (hr : rt.watcherRunning = true) :
    (rt.act ops decode (.select (.value v))).watcherRunning = true
      ∧ (rt.act ops decode (.select (.value v))).puts
          = rt.puts ++ (ingested decode rt.p.entity v).toList
      ∧ (rt.act ops decode (.select (.value v))).p.offsetTimeline
          = (ingested decode rt.p.entity v).toList.foldl ops.Put rt.p.offsetTimeline
      ∧ (rt.act ops decode (.select (.value v))).p.entity = rt.p.entity
      ∧ (rt.act ops decode (.select (.value v))).p.ctx = rt.p.ctx := by
  have h1 := (loopBody_running ops decode rt.p (.value v)).2 (by simp)
  have h2 := loopBody_puts ops decode rt.p v
  have h3 := loopBody_timeline ops decode rt.p (.value v)
  have h4 := loopBody_entity ops decode rt.p (.value v)
  have h5 := loopBody_ctx ops decode rt.p (.value v)
  simp only [Runtime.act, hr, if_true]
  exact ⟨h1, by rw [h2], by rw [h3, h2], h4, h5⟩

/-- One event on a subscription whose goroutine has returned: the goroutine
stays returned, no `Put` call is added and the timeline is unchanged. -/
theorem Subscription.step_after_return (ops : TimelineOps T) (decode : Decoder) (e : Event)
    (w : Subscription T) (h : w.rt.watcherRunning = false) :
    (w.step ops decode e).rt.watcherRunning = false
      ∧ (w.step ops decode e).rt.puts = w.rt.puts
      ∧ (w.step ops decode e).rt.p.offsetTimeline = w.rt.p.offsetTimeline := by
  cases e with
  | stop => exact ⟨h, rfl, rfl⟩
  | setStatus s => exact ⟨h, rfl, rfl⟩
  | deliver v =>
    by_cases hd : w.rt.p.ctx.done = true
    · simp [Subscription.step, hd, h]
    · simp [Subscription.step, hd, h]
  | pass c => simp [Subscription.step, h]

/-- Any events on a subscription whose goroutine has returned: the goroutine
stays returned, no `Put` call is added and the timeline is unchanged. -/
theorem Subscription.run_after_return (ops : TimelineOps T) (decode : Decoder) (es : List Event)
    (w : Subscription T) (h : w.rt.watcherRunning = false) :
    (w.run ops decode es).rt.watcherRunning = false
      ∧ (w.run ops decode es).rt.puts = w.rt.puts
      ∧ (w.run ops decode es).rt.p.offsetTimeline = w.rt.p.offsetTimeline := by
  induction es generalizing w with
  | nil => exact ⟨h, rfl, rfl⟩
  | cons e rest ih =>
    obtain ⟨s1, s2, s3⟩ := Subscription.step_after_return ops decode e w h
    obtain ⟨i1, i2, i3⟩ := ih (w.step ops decode e) s1
    exact ⟨i1, i2.trans s2, i3.trans s3⟩

/-- Events that are not a pass of the goroutine, on a subscription whose
context is cancelled: the context stays cancelled, and the pending values,
the identity, the `Put` calls, the timeline and the state of the goroutine
are unchanged. -/
theorem Subscription.step_other (ops : TimelineOps T) (decode : Decoder) (e : Event)
    (w : Subscription T) (hd : w.rt.p.ctx.done = true) (he : e.isPass = false) :
    (w.step ops decode e).rt.p.ctx.done = true
      ∧ (w.step ops decode e).pending = w.pending
      ∧ (w.step ops decode e).rt.p.entity = w.rt.p.entity
      ∧ (w.step ops decode e).rt.puts = w.rt.puts
      ∧ (w.step ops decode e).rt.p.offsetTimeline = w.rt.p.offsetTimeline
      ∧ (w.step ops decode e).rt.watcherRunning = w.rt.watcherRunning := by
  cases e with
  | stop => exact ⟨rfl, rfl, rfl, rfl, rfl, rfl⟩
  | setStatus s => exact ⟨hd, rfl, rfl, rfl, rfl, rfl⟩
  | deliver v => simp [Subscription.step, hd]
  | pass c => simp [Event.isPass] at he

/-- Bounded termination on a cancelled subscription: once the goroutine has
reached its `select` more often than there were values pending, it has
returned, whatever the choices of the `select` and whatever else happened in
between. -/
theorem Subscription.run_done_returns (ops : TimelineOps T) (decode : Decoder)
    (es : List Event) (w : Subscription T) (hd : w.rt.p.ctx.done = true)
    (hn : w.pending.length < es.countP Event.isPass) :
    (w.run ops decode es).rt.watcherRunning = false := by
  induction es generalizing w with
  | nil => simp at hn
  | cons e rest ih =>
    rw [Subscription.run]
    by_cases hr : w.rt.watcherRunning = true
    · cases hp : e.isPass with
      | false =>
        obtain ⟨o1, o2, -⟩ := Subscription.step_other ops decode e w hd hp
        apply ih _ o1
        rw [o2]
        simpa [List.countP_cons, hp] using hn
      | true =>
        cases e with
        | stop => simp [Event.isPass] at hp
        | setStatus s => simp [Event.isPass] at hp
        | deliver v => simp [Event.isPass] at hp
        | pass c =>
          have hcnt : w.pending.length < rest.countP Event.isPass + 1 := by
            simpa [List.countP_cons, Event.isPass] using hn
          cases hpend : w.pending with
          | nil =>
            have hs : w.step ops decode (.pass c)
                = { w with rt := w.rt.act ops decode (.select .stopped) } := by
              simp [Subscription.step, hr, hpend, hd]
            rw [hs]
            exact (Subscription.run_after_return ops decode rest _
              (Runtime.act_select_stopped ops decode w.rt).1).1
          | cons v more =>
            cases c with
            | true =>
              have hs : w.step ops decode (.pass true)
                  = { w with rt := w.rt.act ops decode (.select .stopped) } := by
                simp [Subscription.step, hr, hpend, hd]
              rw [hs]
              exact (Subscription.run_after_return ops decode rest _
                (Runtime.act_select_stopped ops decode w.rt).1).1
            | false =>
              have hs : w.step ops decode (.pass false)
                  = { rt := w.rt.act ops decode (.select (.value v)), pending := more } := by
                simp [Subscription.step, hr, hpend]
              rw [hs]
              obtain ⟨-, -, -, -, a5⟩ := Runtime.act_select_value ops decode w.rt v hr
              apply ih
              · show (w.rt.act ops decode (.select (.value v))).p.ctx.done = true
                rw [a5]; exact hd
              · show more.length < rest.countP Event.isPass
                rw [hpend, List.length_cons] at hcnt
                omega
    · have hf : w.rt.watcherRunning = false := by simpa using hr
      exact (Subscription.run_after_return ops decode rest _
        (Subscription.step_after_return ops decode e w hf).1).1

/-- What a cancelled subscription can still insert: the pairs of the first
`k` values that were pending, for some `k`, in their order, and nothing
else. -/
theorem Subscription.run_done_puts (ops : TimelineOps T) (decode : Decoder)
    (es : List Event) (w : Subscription T) (hd : w.rt.p.ctx.done = true) :
    ∃ k, k ≤ w.pending.length
      ∧ (w.run ops decode es).rt.puts
          = w.rt.puts ++ (w.pending.take k).filterMap (ingested decode w.rt.p.entity)
      ∧ (w.run ops decode es).rt.p.offsetTimeline
          = ((w.pending.take k).filterMap (ingested decode w.rt.p.entity)).foldl ops.Put
              w.rt.p.offsetTimeline := by
  induction es generalizing w with
  | nil => exact ⟨0, Nat.zero_le _, by simp [Subscription.run], by simp [Subscription.run]⟩
  | cons e rest ih =>
    rw [Subscription.run]
    by_cases hr : w.rt.watcherRunning = true
    · cases hp : e.isPass with
      | false =>
        obtain ⟨o1, o2, o3, o4, o5, -⟩ := Subscription.step_other ops decode e w hd hp
        obtain ⟨k, hk, i1, i2⟩ := ih (w.step ops decode e) o1
        rw [o2, o3, o4] at i1
        rw [o2, o3, o5] at i2
        rw [o2] at hk
        exact ⟨k, hk, i1, i2⟩
      | true =>
        cases e with
        | stop => simp [Event.isPass] at hp
        | setStatus s => simp [Event.isPass] at hp
        | deliver v => simp [Event.isPass] at hp
        | pass c =>
          have hstop : w.step ops decode (.pass c)
                = { w with rt := w.rt.act ops decode (.select .stopped) } →
              ∃ k, k ≤ w.pending.length
                ∧ ((w.step ops decode (.pass c)).run ops decode rest).rt.puts
                    = w.rt.puts ++ (w.pending.take k).filterMap (ingested decode w.rt.p.entity)
                ∧ ((w.step ops decode (.pass c)).run ops decode rest).rt.p.offsetTimeline
                    = ((w.pending.take k).filterMap (ingested decode w.rt.p.entity)).foldl
                        ops.Put w.rt.p.offsetTimeline := by
            intro hs
            rw [hs]
            obtain ⟨a1, a2, a3⟩ := Runtime.act_select_stopped ops decode w.rt
            obtain ⟨-, r2, r3⟩ := Subscription.run_after_return ops decode rest
              { w with rt := w.rt.act ops decode (.select .stopped) } a1
            refine ⟨0, Nat.zero_le _, ?_, ?_⟩
            · rw [r2]; simp [a2]
            · rw [r3]; simp [a3]
          cases hpend : w.pending with
          | nil =>
            have hs : w.step ops decode (.pass c)
                = { w with rt := w.rt.act ops decode (.select .stopped) } := by
              simp [Subscription.step, hr, hpend, hd]
            simpa [hpend] using hstop hs
          | cons v more =>
            cases c with
            | true =>
              have hs : w.step ops decode (.pass true)
                  = { w with rt := w.rt.act ops decode (.select .stopped) } := by
                simp [Subscription.step, hr, hpend, hd]
              obtain ⟨k, hk, h1, h2⟩ := hstop hs
              rw [hpend] at hk h1 h2
              exact ⟨k, hk, h1, h2⟩
            | false =>
              have hs : w.step ops decode (.pass false)
                  = { rt := w.rt.act ops decode (.select (.value v)), pending := more } := by
                simp [Subscription.step, hr, hpend]
              rw [hs]
              obtain ⟨-, a2, a3, a4, a5⟩ := Runtime.act_select_value ops decode w.rt v hr
              obtain ⟨k, hk, i1, i2⟩ := ih
                { rt := w.rt.act ops decode (.select (.value v)), pending := more }
                (by show (w.rt.act ops decode (.select (.value v))).p.ctx.done = true
                    rw [a5]; exact hd)
              simp only [a2, a3, a4] at i1 i2
              refine ⟨k + 1, by simpa using hk, ?_, ?_⟩
              · rw [i1]
                cases hi : ingested decode w.rt.p.entity v <;>
                  simp [List.take_succ_cons, List.filterMap_cons, hi]
              · rw [i2]
                cases hi : ingested decode w.rt.p.entity v <;>
                  simp [List.take_succ_cons, List.filterMap_cons, hi]
    · have hf : w.rt.watcherRunning = false := by simpa using hr
      obtain ⟨s1, s2, s3⟩ := Subscription.step_after_return ops decode e w hf
      obtain ⟨-, r2, r3⟩ := Subscription.run_after_return ops decode rest _ s1
      refine ⟨0, Nat.zero_le _, ?_, ?_⟩
      · rw [r2, s2]; simp
      · rw [r3, s3]; simp

/-- C8 as it holds (cancellation). `stopTimeLineWatcher` cancels the
processor's context and changes nothing else: not the timeline, the status,
the `Put` calls made, the pending values or whether the goroutine runs; a
second call changes nothing more. It causes the loop to terminate: once the
goroutine has reached its `select` more often than there were values pending
on the watch channel at the call, it has returned, whatever the `select` chose
and whatever else happened in between. It does not stop ingestion at once: a
pass that takes a value after the call does exactly what it does without the
call, so a pending value is ingested like any other, and what the loop still
inserts after the call is the pairs of the first `k` pending values, in order,
for some `k`, and nothing else. The pass that takes the completion signal
returns at once without inserting, and from then on no `Put` call is made and
the timeline stays as it is; the goroutine has returned exactly when that
signal has been taken. -/
theorem cancellation_termination (ops : TimelineOps T) (decode : Decoder)
    (w : Subscription T) :
    ((w.step ops decode .stop).rt.p.ctx.done = true
        ∧ (w.step ops decode .stop).rt.p.offsetTimeline = w.rt.p.offsetTimeline
        ∧ (w.step ops decode .stop).rt.p.status = w.rt.p.status
        ∧ (w.step ops decode .stop).rt.puts = w.rt.puts
        ∧ (w.step ops decode .stop).rt.watcherRunning = w.rt.watcherRunning
        ∧ (w.step ops decode .stop).pending = w.pending)
      ∧ (w.step ops decode .stop).step ops decode .stop = w.step ops decode .stop
      ∧ (∀ es : List Event, w.pending.length < es.countP Event.isPass →
          ((w.step ops decode .stop).run ops decode es).rt.watcherRunning = false)
      ∧ (∀ es : List Event, ∃ k, k ≤ w.pending.length
          ∧ ((w.step ops decode .stop).run ops decode es).rt.puts
              = w.rt.puts ++ (w.pending.take k).filterMap (ingested decode w.rt.p.entity)
          ∧ ((w.step ops decode .stop).run ops decode es).rt.p.offsetTimeline
              = ((w.pending.take k).filterMap (ingested decode w.rt.p.entity)).foldl ops.Put
                  w.rt.p.offsetTimeline)
      ∧ (∀ sel : Selected,
          (w.rt.act ops decode .stop).act ops decode (.select sel)
            = (w.rt.act ops decode (.select sel)).act ops decode .stop)
      ∧ (∀ (v : Option WatermarkKVEntry) (rest : List (Option WatermarkKVEntry)),
          w.pending = v :: rest → w.rt.watcherRunning = true →
          ((w.step ops decode .stop).step ops decode (.pass false)).rt.puts
              = w.rt.puts ++ (ingested decode w.rt.p.entity v).toList
            ∧ ((w.step ops decode .stop).step ops decode (.pass false)).rt.p.offsetTimeline
              = (ingested decode w.rt.p.entity v).toList.foldl ops.Put w.rt.p.offsetTimeline
            ∧ ((w.step ops decode .stop).step ops decode (.pass false)).rt.watcherRunning = true
            ∧ ((w.step ops decode .stop).step ops decode (.pass false)).pending = rest)
      ∧ ((w.rt.act ops decode (.select .stopped)).watcherRunning = false
        ∧ (w.rt.act ops decode (.select .stopped)).puts = w.rt.puts
        ∧ (w.rt.act ops decode (.select .stopped)).p = w.rt.p)
      ∧ (∀ before after : List Action,
          (w.rt.run ops decode (before ++ .select .stopped :: after)).watcherRunning = false
            ∧ (w.rt.run ops decode (before ++ .select .stopped :: after)).puts
                = (w.rt.run ops decode before).puts
            ∧ (w.rt.run ops decode (before ++ .select .stopped :: after)).p.offsetTimeline
                = (w.rt.run ops decode before).p.offsetTimeline)
      ∧ (∀ acts : List Action,
          (w.rt.run ops decode acts).watcherRunning = true
            ↔ w.rt.watcherRunning = true ∧ Action.select Selected.stopped ∉ acts) := by
  have hdone : (w.step ops decode .stop).rt.p.ctx.done = true := rfl
  refine ⟨⟨rfl, rfl, rfl, rfl, rfl, rfl⟩, rfl, ?_, ?_, ?_, ?_,
    Runtime.act_select_stopped ops decode w.rt, ?_,
    fun acts => Runtime.run_watcherRunning ops decode acts w.rt⟩
  · intro es hn
    exact Subscription.run_done_returns ops decode es (w.step ops decode .stop) hdone hn
  · intro es
    exact Subscription.run_done_puts ops decode es (w.step ops decode .stop) hdone
  · intro sel
    by_cases hr : w.rt.watcherRunning = true
    · simp [Runtime.act, hr, loopBody_stopTimeLineWatcher]
    · simp [Runtime.act, hr]
  · intro v rest hpend hr
    have hr2 : (w.rt.act ops decode .stop).watcherRunning = true := hr
    have hs : (w.step ops decode .stop).step ops decode (.pass false)
        = { rt := (w.rt.act ops decode .stop).act ops decode (.select (.value v)),
            pending := rest } := by
      simp [Subscription.step, hr2, hpend]
    obtain ⟨a1, a2, a3, -, -⟩ :=
      Runtime.act_select_value ops decode (w.rt.act ops decode .stop) v hr2
    rw [hs]
    exact ⟨a2, a3, a1, rfl⟩
  · intro before after
    rw [Runtime.run_append, Runtime.run]
    obtain ⟨s1, s2, s3⟩ := Runtime.act_select_stopped ops decode (w.rt.run ops decode before)
    obtain ⟨r1, r2, r3⟩ := Runtime.run_returned ops decode after _ s1
    exact ⟨r1, r2.trans s2, r3.trans (by rw [s3])⟩

/-- C8 as it holds, at a concrete input: `proc1` with two of its Put events
pending is stopped; the goroutine takes one of them, a delivery is attempted,
and after two more passes the goroutine has returned, having inserted the two
pending pairs and nothing of what was delivered after the call. -/
theorem cancellation_termination_witness :
    ((sub1.step recorder twoByteDecode .stop).run recorder twoByteDecode
        [.pass false, .deliver (some putOwn), .pass false, .pass false]).rt.watcherRunning
        = false
      ∧ ((sub1.step recorder twoByteDecode .stop).run recorder twoByteDecode
          [.pass false, .deliver (some putOwn), .pass false, .pass false]).rt.puts
        = [{ watermark := 15, offset := 1 }, { watermark := 20, offset := 2 }] :=
  ⟨(cancellation_termination recorder twoByteDecode sub1).2.2.1
      [.pass false, .deliver (some putOwn), .pass false, .pass false] (by decide),
    by decide⟩

/-- C8 as stated fails: on the processor `proc1` with its goroutine running,
`stopTimeLineWatcher` is called, which cancels the context and makes no `Put`;
the `select` then takes a matching Put event that is available on the watch
channel, and the loop, still running, inserts its pair (15,1) into the
timeline after the call. -/
theorem cancellation_termination_counterexample :
    (rt1.run recorder twoByteDecode [.stop]).p.ctx.done = true
      ∧ (rt1.run recorder twoByteDecode [.stop]).puts = []
      ∧ (rt1.run recorder twoByteDecode [.stop]).p.offsetTimeline = []
      ∧ (rt1.run recorder twoByteDecode [.stop, .select (.value (some putOwn))]).puts
          = [{ watermark := 15, offset := 1 }]
      ∧ (rt1.run recorder twoByteDecode
            [.stop, .select (.value (some putOwn))]).p.offsetTimeline
          = [{ watermark := 15, offset := 1 }]
      ∧ (rt1.run recorder twoByteDecode
            [.stop, .select (.value (some putOwn))]).watcherRunning = true
      ∧ (sub1.step recorder twoByteDecode .stop).rt.puts = []
      ∧ ((sub1.step recorder twoByteDecode .stop).step recorder twoByteDecode
            (.pass false)).rt.puts = [{ watermark := 15, offset := 1 }]
      ∧ ((sub1.step recorder twoByteDecode .stop).step recorder twoByteDecode
            (.pass false)).rt.p.offsetTimeline = [{ watermark := 15, offset := 1 }] := by
  decide

/-! Section: Construction -/

/-- C9 (non-positive capacities are rejected), against the timeline of the
specification. `NewProcessorToFetch` has no check of its own: for every
timeline it returns nothing exactly when `NewOffsetTimeline` does not return
for the derived context and the capacity. With the timeline of the
specification, which rejects a capacity that is not positive, constructing a
processor with such a capacity returns no processor and starts no
goroutine. -/
theorem invalid_capacity_rejected (ctx : Context) (processor : ProcessorEntitier)
    (capacity : Int) (watcher : WatermarkKVWatcher) (hcap : capacity ≤ 0) :
    NewProcessorToFetch specTimeline ctx processor capacity watcher = none
      ∧ ∀ (ops : TimelineOps T),
          NewProcessorToFetch ops ctx processor capacity watcher = none
            ↔ ops.NewOffsetTimeline ctx.WithCancel capacity = none := by
  constructor
  · simp [NewProcessorToFetch, specTimeline, NewOffsetTimeline, hcap]
  · intro ops
    cases hn : ops.NewOffsetTimeline ctx.WithCancel capacity <;>
      simp [NewProcessorToFetch, hn]

/-- C9 at a concrete input: capacity 0 for the processor `p1`. -/
theorem invalid_capacity_rejected_witness :
    NewProcessorToFetch specTimeline { done := false } p1 0 bucket = none :=
  (invalid_capacity_rejected (T := OffsetTimeline) { done := false } p1 0 bucket
    (by decide)).1

end Fetch
